import Mathlib

/-!
Shallow embedding of the hono-vtodo CalDAV server.

Timestamps are modeled as millisecond epoch integers (the value of
JS `Date.prototype.getTime`), nullable source fields as `Option`,
and the WebDAV multistatus sub-responses as an inductive `DavEntry`
that records, for each rendered resource, its href together with the
status class the source emits for it (200 propstat with the task,
410 Gone, or 404 Not Found).

Sources embedded here:
  src/src/caldav/ical.ts        (priority tables, VALARM decoding, parseVtodo)
  src/src/caldav/handlers.ts    (readBodyWithLimit, normalizeHrefUid,
                                 parseBasicAuth, handleProject, handleReport,
                                 the PUT upsert route)
  src/unnamed/part_002          (xml.ts: href, buildSyncCollectionResponse,
                                 buildCalendarMultigetResponse,
                                 buildUnauthorizedResponse)
  src/unnamed/part_003          (storage.ts: createTask, updateTask)

JS builtins used by those files (`decodeURIComponent`, `parseInt`,
`String.prototype.toUpperCase`, the `URL` constructor) are modeled for
ASCII input; each model carries a comment saying what it covers.
-/

/-- Millisecond epoch timestamps, the value of a JS Date.getTime call. -/
abbrev Millis := Int

/- String literal constants of the source, bound to names once. -/

def emptyStr : String := ""

def slashStr : String := "/"

def icsSuffix : String := ".ics"

def httpScheme : String := "http://"

def httpsScheme : String := "https://"

def davProjectsRoot : String := "/dav/projects/"

def strDateTimeParam : String := "DATE-TIME"

def strRelatedEnd : String := "END"

def strAnchorEnd : String := "end"

def strAnchorStart : String := "start"

/-- Structure for rows of caldav_projects used by the handlers. -/
structure CaldavProject where
  id : Int
  name : String
  updatedAt : Millis
  deriving DecidableEq, Repr

/-- Structure for a reminder row (schema.ts CaldavReminder). -/
structure CaldavReminder where
  reminderAt : Option Millis
  relativeSeconds : Option Int
  relativeTo : Option String
  deriving DecidableEq, Repr

/-- Structure for a live task, restricted to the fields the verified
handlers read (schema.ts CaldavTask). -/
structure CaldavTask where
  uid : String
  title : String
  description : String
  priority : Option Int
  updatedAt : Millis
  deriving DecidableEq, Repr

/-- Row of caldav_task_deletions: a tombstone (uid, deletedAt). -/
structure DeletionEntry where
  uid : String
  deletedAt : Millis
  deriving DecidableEq, Repr

/-- mapPriorityToCaldav from src/src/caldav/ical.ts lines 5-23.
The argument is `number | null`; the JS falsiness test `!priority`
holds for both null and 0. -/
def mapPriorityToCaldav (priority : Option Int) : Option Int :=
  match priority with
  | none => none
  | some p =>
    if p = 0 then none
    else if p = 1 then some 9
    else if p = 2 then some 5
    else if p = 3 then some 3
    else if p = 4 then some 2
    else if p = 5 then some 1
    else some 0

/-- parseVtodoPriority from src/src/caldav/ical.ts lines 25-42. -/
def parseVtodoPriority (priority : Option Int) : Option Int :=
  match priority with
  | none => none
  | some p =>
    if p = 0 then none
    else if p = 1 then some 5
    else if p = 2 then some 4
    else if p = 3 then some 3
    else if p = 4 then some 3
    else if p = 5 then some 2
    else some 1

/-- Canonical wire value of each internal priority bucket, the
vocabulary of the round-trip claim (internal 1 to wire 9, 2 to 5,
3 to 3, 4 to 2, 5 to 1). -/
def canonicalWire (internal : Int) : Int :=
  if internal = 1 then 9
  else if internal = 2 then 5
  else if internal = 3 then 3
  else if internal = 4 then 2
  else 1

/-- Value carried by an ical.js TRIGGER property: an ICAL.Time
(DATE-TIME), an ICAL.Duration, or anything else. -/
inductive TriggerValue where
  | dateTime (t : Millis)
  | duration (seconds : Int)
  | other
  deriving DecidableEq, Repr

/-- TRIGGER property of a VALARM: its RELATED parameter, its VALUE
parameter, and its first value. -/
structure TriggerProp where
  related : Option String
  valueParam : Option String
  value : TriggerValue
  deriving DecidableEq, Repr

/-- VALARM subcomponent, restricted to its first TRIGGER property,
which is all parseReminders reads. -/
structure Valarm where
  trigger : Option TriggerProp
  deriving DecidableEq, Repr

/-- Body of the per-alarm loop of parseReminders
(src/src/caldav/ical.ts lines 91-123): an alarm with no trigger is
skipped; a trigger whose VALUE parameter is DATE-TIME and whose value
is an ICAL.Time pushes an absolute reminder; otherwise a Duration
value pushes a relative reminder anchored to end exactly when
RELATED equals the string END; anything else is skipped. -/
def parseReminderOfAlarm (alarm : Valarm) : Option CaldavReminder :=
  match alarm.trigger with
  | none => none
  | some trig =>
    match trig.value with
    | TriggerValue.dateTime t =>
      if trig.valueParam = some strDateTimeParam then
        some { reminderAt := some t, relativeSeconds := none, relativeTo := none }
      else none
    | TriggerValue.duration s =>
      if trig.related = some strRelatedEnd then
        some { reminderAt := none, relativeSeconds := some s, relativeTo := some strAnchorEnd }
      else
        some { reminderAt := none, relativeSeconds := some s, relativeTo := some strAnchorStart }
    | TriggerValue.other => none

/-- parseReminders from src/src/caldav/ical.ts lines 89-125. -/
def parseReminders (alarms : List Valarm) : List CaldavReminder :=
  alarms.filterMap parseReminderOfAlarm

/-- One sub-response of a multistatus document, at the level of detail
the claims need: an entry rendered by responseFor carries its href and
the task whose properties (getetag, calendar-data, ...) it holds; a
responseGone or responseNotFound entry carries its href and the 410 or
404 status line (xml.ts in src/unnamed/part_002, lines 366-387). -/
inductive DavEntry where
  | ok (hrefValue : String) (task : CaldavTask)
  | gone (hrefValue : String)
  | notFound (hrefValue : String)
  deriving DecidableEq, Repr

/-- Multistatus document: the ordered sub-responses plus the optional
top-level sync-token element (xml.ts multistatus, lines 389-399). -/
structure MultistatusResponse where
  entries : List DavEntry
  syncToken : Option String
  deriving DecidableEq, Repr

/-- Model of JS String.prototype.startsWith and endsWith over char
lists, written to evaluate by kernel reduction. charsStart decides
whether the second list is a prefix of the first. -/
def charsStart (cs pat : List Char) : Bool :=
  match pat, cs with
  | [], _ => true
  | _ :: _, [] => false
  | p :: pt, c :: ct => p == c && charsStart ct pt

/-- JS String.prototype.startsWith. -/
def strStarts (s pat : String) : Bool := charsStart s.toList pat.toList

/-- JS String.prototype.endsWith. -/
def strEnds (s pat : String) : Bool := charsStart s.toList.reverse pat.toList.reverse

/-- href from xml.ts (src/unnamed/part_002 lines 348-354): ensure a
leading slash; keep the path as is when it already ends in a slash or
in .ics, else append a trailing slash. -/
def hrefOf (path : String) : String :=
  let normalized := if strStarts path slashStr then path else slashStr ++ path
  if strEnds normalized slashStr || strEnds normalized icsSuffix then normalized
  else normalized ++ slashStr

/-- Path rendered for a task or tombstone resource inside a project,
as built at the buildSyncCollectionResponse call sites. -/
def davTaskHref (projectId : Int) (uid : String) : String :=
  hrefOf (davProjectsRoot ++ toString projectId ++ slashStr ++ uid ++ icsSuffix)

/-- buildSyncCollectionResponse from src/unnamed/part_002 lines
620-647: one 200 entry per task, then one 410 Gone entry per deleted
uid, with the passed sync token. -/
def buildSyncCollectionResponse (project : CaldavProject) (tasks : List CaldavTask)
    (deletedUids : List String) (syncToken : Option String) : MultistatusResponse :=
  { entries :=
      tasks.map (fun task => DavEntry.ok (davTaskHref project.id task.uid) task)
        ++ deletedUids.map (fun uid => DavEntry.gone (davTaskHref project.id uid)),
    syncToken := syncToken }

/-- Sync token computed by handleReport (src/src/caldav/handlers.ts
lines 234-242): Math.max of project.updatedAt, every task updatedAt
and every tombstone deletedAt, over the unfiltered lists. -/
def computeSyncToken (project : CaldavProject) (tasks : List CaldavTask)
    (deletions : List DeletionEntry) : Millis :=
  ((tasks.map CaldavTask.updatedAt) ++ (deletions.map DeletionEntry.deletedAt)).foldl
    max project.updatedAt

/-- Sync-collection branch of handleReport (src/src/caldav/handlers.ts
lines 227-268). `requestTokenMs` is the result of Number(token) on the
request sync token: `none` stands for an absent token or a NaN parse,
`some t` for a finite numeric token. The filter cutoffs are strict
(Date comparison by millisecond value), and the response sync token is
String(Math.max ...) over the unfiltered lists. -/
def handleReportSyncCollection (project : CaldavProject) (tasks : List CaldavTask)
    (deletions : List DeletionEntry) (requestTokenMs : Option Millis) : MultistatusResponse :=
  let since : Option Millis :=
    match requestTokenMs with
    | some t => if 0 < t then some t else none
    | none => none
  let syncToken := toString (computeSyncToken project tasks deletions)
  let tasksForResponse :=
    match since with
    | some s => tasks.filter (fun task => decide (s < task.updatedAt))
    | none => tasks
  let deletedUids :=
    match since with
    | some s => (deletions.filter (fun e => decide (s < e.deletedAt))).map DeletionEntry.uid
    | none => deletions.map DeletionEntry.uid
  buildSyncCollectionResponse project tasksForResponse deletedUids (some syncToken)

/-- Numeric value of an ASCII hex digit, used by the percent-escape
model below. -/
def hexDigitVal (c : Char) : Option Nat :=
  if '0' ≤ c ∧ c ≤ '9' then some (c.toNat - 48)
  else if 'A' ≤ c ∧ c ≤ 'F' then some (c.toNat - 55)
  else if 'a' ≤ c ∧ c ≤ 'f' then some (c.toNat - 87)
  else none

/-- Model of the decodeURIComponent builtin restricted to single-byte
percent escapes: a well-formed escape %XX becomes the character with
that code, other characters pass through, and a malformed escape --
which makes the builtin throw URIError -- yields none. Multi-byte
UTF-8 escape sequences are outside the modeled domain. -/
def percentDecodeList : List Char → Option (List Char)
  | [] => some []
  | '%' :: h1 :: h2 :: rest =>
    match hexDigitVal h1, hexDigitVal h2 with
    | some v1, some v2 =>
      (percentDecodeList rest).map (fun tail => Char.ofNat (16 * v1 + v2) :: tail)
    | _, _ => none
  | '%' :: _ => none
  | c :: rest => (percentDecodeList rest).map (fun tail => c :: tail)

/-- decodeURIComponent on a string, via percentDecodeList. -/
def decodeURIComponentModel (s : String) : Option String :=
  (percentDecodeList s.toList).map (fun l => String.mk l)

/-- Model of String.prototype.toUpperCase, exact on ASCII input
(Char.toUpper maps only the letters a-z). -/
def jsToUpper (s : String) : String :=
  String.mk (s.toList.map Char.toUpper)

/-- Model of String.prototype.toLowerCase, exact on ASCII input. -/
def jsToLower (s : String) : String :=
  String.mk (s.toList.map Char.toLower)

/-- The replace of the case-insensitive anchored regex for a .ics
suffix: strip the last four characters when they spell .ics in any
letter case. -/
def stripIcsSuffix (s : String) : String :=
  if strEnds (jsToLower s) icsSuffix then s.dropRight 4 else s

/-- JS String.prototype.split with a one-character separator: split
never returns an empty list, and an empty input yields one empty
segment. -/
def splitOnChar (sep : Char) : List Char → List (List Char)
  | [] => [[]]
  | c :: rest =>
    let r := splitOnChar sep rest
    if c = sep then [] :: r
    else
      match r with
      | [] => [[c]]
      | h :: t => (c :: h) :: t

/-- Model of pathname extraction by the WHATWG URL constructor for
well-formed absolute http or https URLs: skip the scheme, skip the
authority up to the first slash, question mark or hash, and return the
path up to a query or fragment, defaulting to a single slash. (The
builtin throws on an invalid URL and handleReport then falls back to
the raw href; that fallback is not exercised by the theorems below.) -/
def urlPathname (s : String) : String :=
  let afterScheme :=
    if strStarts s httpsScheme then s.drop 8
    else if strStarts s httpScheme then s.drop 7
    else s
  let rest := afterScheme.toList.dropWhile (fun c => !(c == '/' || c == '?' || c == '#'))
  match rest with
  | '/' :: _ => String.mk (rest.takeWhile (fun c => !(c == '?' || c == '#')))
  | _ => slashStr

/-- normalizeHrefUid from src/src/caldav/handlers.ts lines 93-108,
which is also the inline uid extraction of
buildCalendarMultigetResponse (src/unnamed/part_002 lines 665-680):
take the pathname for absolute URLs, take the last slash-separated
segment, percent-decode it, strip a case-insensitive .ics suffix, and
fail on an empty result. -/
def normalizeHrefUid (hrefValue : String) : Option String :=
  let path :=
    if strStarts hrefValue httpScheme || strStarts hrefValue httpsScheme then
      urlPathname hrefValue
    else hrefValue
  let rawLast := String.mk ((splitOnChar '/' path.toList).getLastD [])
  if rawLast = emptyStr then none
  else
    match decodeURIComponentModel rawLast with
    | none => none
    | some decoded =>
      let uid := stripIcsSuffix decoded
      if uid = emptyStr then none else some uid

/-- Lookup in the Map built by
`new Map(tasks.map((task) => [task.uid.toUpperCase(), task]))`
followed by `.get(key)`: insertion order means a later task with the
same uppercased uid overwrites an earlier one, which the foldl
accumulator reproduces. -/
def lookupTaskByUidUpper (tasks : List CaldavTask) (key : String) : Option CaldavTask :=
  tasks.foldl (fun acc task => if jsToUpper task.uid = key then some task else acc) none

/-- Body of the per-href loop of buildCalendarMultigetResponse
(src/unnamed/part_002 lines 665-695): hrefs with no extractable uid
are skipped; a uid matching a live task (uppercased on both sides)
yields the task entry; otherwise a uid present in the uppercased
tombstone set yields 410 Gone, else 404 Not Found. -/
def multigetEntry (tasks : List CaldavTask) (deletedUids : List String)
    (hrefValue : String) : Option DavEntry :=
  match normalizeHrefUid hrefValue with
  | none => none
  | some uid =>
    match lookupTaskByUidUpper tasks (jsToUpper uid) with
    | some task => some (DavEntry.ok hrefValue task)
    | none =>
      if jsToUpper uid ∈ deletedUids.map jsToUpper then some (DavEntry.gone hrefValue)
      else some (DavEntry.notFound hrefValue)

/-- buildCalendarMultigetResponse from src/unnamed/part_002 lines
649-700, over the href values already extracted from the request
body. -/
def buildCalendarMultigetResponse (tasks : List CaldavTask) (deletedUids : List String)
    (hrefs : List String) (syncToken : Option String) : MultistatusResponse :=
  { entries := hrefs.filterMap (multigetEntry tasks deletedUids),
    syncToken := syncToken }

/-- CaldavTaskInput (schema.ts), restricted to the fields the verified
paths read. `description` is optional in the TS type
(`description?: string`); `updatedAt` is optional and, when absent,
storage substitutes the current time. -/
structure VtodoInput where
  uid : String
  title : String
  description : Option String
  priority : Option Int
  updatedAt : Option Millis
  deriving DecidableEq, Repr

/-- First-property values present in the parsed VTODO component, the
input to the field extraction of parseVtodo. A `none` field means the
property is absent from the component. `priority` is the numeric value
of the PRIORITY property (absent modeled as none; the source turns an
absent property into 0 before the table lookup). -/
structure VtodoProps where
  uid : Option String
  summary : Option String
  description : Option String
  priority : Option Int
  lastModified : Option Millis
  dtstamp : Option Millis
  deriving DecidableEq, Repr

/-- Field extraction of parseVtodo (src/src/caldav/ical.ts lines
166-215), for the fields the claims touch. Every string field defaults
to the empty string via `?? ""`, so the returned description is always
a present string, never undefined; updatedAt is LAST-MODIFIED when
present, else DTSTAMP, else undefined. -/
def parseVtodo (props : VtodoProps) : VtodoInput :=
  { uid := props.uid.getD emptyStr,
    title := props.summary.getD emptyStr,
    description := some (props.description.getD emptyStr),
    priority := parseVtodoPriority (some (props.priority.getD 0)),
    updatedAt := props.lastModified.orElse (fun _ => props.dtstamp) }

/-- createTask from src/unnamed/part_003 lines 176-233, restricted to
the columns the claims read: uid and title as given, description
defaulted to the empty string, updated_at from the input or else the
current time `now`. -/
def createTask (input : VtodoInput) (now : Millis) : CaldavTask :=
  { uid := input.uid,
    title := input.title,
    description := input.description.getD emptyStr,
    priority := input.priority,
    updatedAt := input.updatedAt.getD now }

/-- updateTask from src/unnamed/part_003 lines 235-296: overwrites
title, description (defaulted to the empty string), priority, and sets
updated_at from the input or else the current time `now`; the uid
column is not touched. -/
def updateTask (existing : CaldavTask) (input : VtodoInput) (now : Millis) : CaldavTask :=
  { existing with
    title := input.title,
    description := input.description.getD emptyStr,
    priority := input.priority,
    updatedAt := input.updatedAt.getD now }

/-- Outcome of the PUT upsert: the HTTP status, the numeric content of
the quoted ETag header (task.updatedAt.getTime()), and the stored
task. -/
structure PutResult where
  status : Nat
  etagMs : Millis
  task : CaldavTask
  deriving DecidableEq, Repr

/-- Upsert core of the PUT route (src/src/caldav/handlers.ts lines
463-481): spread the parsed input, force the uid from the URL, copy
the stored description onto the input when a task exists and the
parsed description is undefined, then update (200) or create (201);
the ETag is the updated task's timestamp. -/
def putUpsert (existing : Option CaldavTask) (parsed : VtodoInput) (uid : String)
    (now : Millis) : PutResult :=
  let base : VtodoInput := { parsed with uid := uid }
  match existing with
  | some e =>
    let taskInput :=
      if parsed.description = none then { base with description := some e.description }
      else base
    let task := updateTask e taskInput now
    { status := 200, etagMs := task.updatedAt, task := task }
  | none =>
    let task := createTask base now
    { status := 201, etagMs := task.updatedAt, task := task }

/-- HTTP response at the level of detail the claims need. -/
structure HttpResponse where
  status : Nat
  body : String
  headers : List (String × String)
  deriving DecidableEq, Repr

def tooLargeBody : String := "Request Entity Too Large"

/-- Response of `c.text("Request Entity Too Large", 413)`. -/
def resp413 : HttpResponse :=
  { status := 413, body := tooLargeBody, headers := [] }

/-- Model of the parseInt builtin with radix 10: skip leading
whitespace, take an optional sign and then the longest digit run; NaN
(modeled none) when no digit follows. -/
def parseIntBase10 (s : String) : Option Int :=
  let cs := s.toList.dropWhile Char.isWhitespace
  let signed : Int × List Char :=
    match cs with
    | '-' :: rest => (-1, rest)
    | '+' :: rest => (1, rest)
    | _ => (1, cs)
  let digits := signed.2.takeWhile Char.isDigit
  if digits.isEmpty then none
  else some (signed.1 * digits.foldl (fun n c => n * 10 + ((c.toNat : Int) - 48)) 0)

/-- MAX_BODY_SIZE from src/src/caldav/handlers.ts line 35: 256 KiB. -/
def MAX_BODY_SIZE : Int := 256 * 1024

/-- Trailing length re-check of readBodyWithLimit: the actually read
body over the bound is rejected with 413. JS measures string length in
UTF-16 code units; the model counts characters, exact on ASCII. -/
def bodyLengthCheck (body : String) : Except HttpResponse String :=
  if MAX_BODY_SIZE < (body.length : Int) then Except.error resp413 else Except.ok body

/-- readBodyWithLimit from src/src/caldav/handlers.ts lines 37-52.
The header block runs only under `if (contentLength)`, so an absent or
empty header string skips straight to the length re-check; a present
header that parses to NaN or to a value over the bound short-circuits
with 413 before the body is consulted. -/
def readBodyWithLimit (contentLength : Option String) (body : String) :
    Except HttpResponse String :=
  match contentLength with
  | some cl =>
    if cl = emptyStr then bodyLengthCheck body
    else
      match parseIntBase10 cl with
      | none => Except.error resp413
      | some len =>
        if MAX_BODY_SIZE < len then Except.error resp413 else bodyLengthCheck body
  | none => bodyLengthCheck body

def etagName : String := "ETag"

def quoteStr : String := "\""

/-- PUT route pipeline (src/src/caldav/handlers.ts lines 431-482)
abstracted over the codec: read the body under the size limit, then
parse it, then upsert. The `parse` argument stands for parseVtodo on
raw ICS text, so the 413 theorems hold for every possible parse
outcome, showing rejection happens before any calendar parsing. The
rendered calendar text in the 2xx body is abstracted to the empty
string; the ETag header carries the quoted timestamp. -/
def handlePutRoute (parse : String → Except String VtodoInput)
    (contentLength : Option String) (rawBody : String)
    (existing : Option CaldavTask) (uid : String) (now : Millis) : HttpResponse :=
  match readBodyWithLimit contentLength rawBody with
  | Except.error e => e
  | Except.ok content =>
    match parse content with
    | Except.error msg => { status := 400, body := msg, headers := [] }
    | Except.ok parsed =>
      let r := putUpsert existing parsed uid now
      { status := r.status, body := emptyStr,
        headers := [(etagName, quoteStr ++ toString r.etagMs ++ quoteStr)] }

/-- CaldavUser from schema.ts, restricted to identity fields. -/
structure CaldavUser where
  id : String
  username : String
  deriving DecidableEq, Repr

/-- Parsed Basic credentials. -/
structure BasicCreds where
  username : String
  password : String
  deriving DecidableEq, Repr

def spaceStr : String := " "

def basicLower : String := "basic"

/-- The slice at the first colon of parseBasicAuth: indexOf then
slice, none when no colon occurs in the decoded string. -/
def splitAtFirstColon (s : String) : Option BasicCreds :=
  let cs := s.toList
  let pre := cs.takeWhile (fun c => !(c == ':'))
  let post := cs.dropWhile (fun c => !(c == ':'))
  match post with
  | [] => none
  | _ :: rest => some { username := String.mk pre, password := String.mk rest }

/-- parseBasicAuth from src/src/caldav/handlers.ts lines 71-91,
abstracted over the base64 decoder (an external hono utility): a
missing or empty header, a scheme other than basic (lowercased), a
missing value, or a decoded string without a colon all yield null. -/
def parseBasicAuth (decode : String → String) (header : Option String) :
    Option BasicCreds :=
  match header with
  | none => none
  | some h =>
    if h = emptyStr then none
    else
      let parts := (splitOnChar ' ' h.toList).map String.mk
      let scheme := parts.getD 0 emptyStr
      let value := parts.getD 1 emptyStr
      if scheme = emptyStr ∨ jsToLower scheme ≠ basicLower ∨ value = emptyStr then none
      else splitAtFirstColon (decode value)

/-- requireAuth from src/src/caldav/handlers.ts lines 115-125,
abstracted over the credential check against the token table. -/
def requireAuth (decode : String → String)
    (authenticate : BasicCreds → Option CaldavUser)
    (authHeader : Option String) : Option CaldavUser :=
  match parseBasicAuth decode authHeader with
  | none => none
  | some creds => authenticate creds

def unauthorizedBody : String := "Unauthorized"

def wwwAuthenticateName : String := "WWW-Authenticate"

def basicChallenge : String := "Basic realm=\"CalDAV\""

/-- buildUnauthorizedResponse from src/unnamed/part_002 lines
437-441. -/
def buildUnauthorizedResponse : HttpResponse :=
  { status := 401, body := unauthorizedBody,
    headers := [(wwwAuthenticateName, basicChallenge)] }

def projectNotFoundBody : String := "Project not found"

/-- handleProject from src/src/caldav/handlers.ts lines 172-195:
authenticate first, answering 401 before any storage access; only then
resolve the project (404 when absent or owned by someone else) and
render it. The depth-dependent rendering is abstracted into the
`render` argument. -/
def handleProject (decode : String → String)
    (authenticate : BasicCreds → Option CaldavUser)
    (authHeader : Option String) (project : Option CaldavProject)
    (render : CaldavProject → HttpResponse) : HttpResponse :=
  match requireAuth decode authenticate authHeader with
  | none => buildUnauthorizedResponse
  | some _ =>
    match project with
    | none => { status := 404, body := projectNotFoundBody, headers := [] }
    | some p => render p


/- Concrete instances used by the counterexamples and witnesses. -/

def uidT1 : String := "T1"

def titleA : String := "A"

def titleB : String := "B"

def projW : CaldavProject := { id := 1, name := "Inbox", updatedAt := 100 }

def taskW : CaldavTask :=
  { uid := titleA, title := titleA, description := emptyStr, priority := none,
    updatedAt := 200 }

def delW : DeletionEntry := { uid := titleB, deletedAt := 150 }

/-- PUT body properties: title A, LAST-MODIFIED at 1000 ms. -/
def propsPutA : VtodoProps :=
  { uid := some uidT1, summary := some titleA, description := none, priority := none,
    lastModified := some 1000, dtstamp := none }

/-- Second PUT body: changed title B, same LAST-MODIFIED 1000 ms. -/
def propsPutB : VtodoProps :=
  { uid := some uidT1, summary := some titleB, description := none, priority := none,
    lastModified := some 1000, dtstamp := none }

/-- Second PUT body with no LAST-MODIFIED and no DTSTAMP, so storage
falls back to the server clock. -/
def propsPutNoStamp : VtodoProps :=
  { uid := some uidT1, summary := some titleB, description := none, priority := none,
    lastModified := none, dtstamp := none }

def uidT4 : String := "T4"

def titleOld : String := "Old"

def titleNew : String := "New"

def descKeep : String := "keep"

/-- Stored task whose description should survive a PUT that omits
DESCRIPTION. -/
def taskKeep : CaldavTask :=
  { uid := uidT4, title := titleOld, description := descKeep, priority := none,
    updatedAt := 1000 }

/-- PUT body for taskKeep with no DESCRIPTION property. -/
def propsNoDesc : VtodoProps :=
  { uid := some uidT4, summary := some titleNew, description := none, priority := none,
    lastModified := none, dtstamp := none }

def hrefMissing : String := "/dav/projects/1/missing.ics"

def uidMissing : String := "missing"

def hrefAbc : String := "/dav/projects/1/abc.ics"

def uidAbc : String := "abc"

def uidABCupper : String := "ABC"

/-- Live task whose uid differs from the requested href only in letter
case. -/
def taskABC : CaldavTask :=
  { uid := uidABCupper, title := titleA, description := emptyStr, priority := none,
    updatedAt := 300 }

/-- Content-Length header value declaring 300000 bytes. -/
def clBig : String := "300000"

/-- Codec stand-in that rejects every body, used to show the 413 path
never reaches the codec. -/
def parseAbort : String → Except String VtodoInput := fun s => Except.error s

def idDecode : String → String := fun s => s

/-- Credential check that matches nothing. -/
def noUser : BasicCreds → Option CaldavUser := fun _ => none

/-- Stand-in renderer for the authorized project response. -/
def projRender : CaldavProject → HttpResponse :=
  fun _ => { status := 207, body := emptyStr, headers := [] }

/- Helper lemmas about foldl max, shared by the sync-token theorems. -/

/-- Initial value bound of a foldl max. -/
theorem listFoldlMax_init_le (l : List Int) (a : Int) : a ≤ l.foldl max a := by
  induction l generalizing a with
  | nil => exact le_refl a
  | cons x xs ih =>
    rw [List.foldl_cons]
    exact le_trans (le_max_left a x) (ih (max a x))

/-- Element bound of a foldl max. -/
theorem listFoldlMax_mem_le (l : List Int) (a : Int) :
    ∀ x ∈ l, x ≤ l.foldl max a := by
  induction l generalizing a with
  | nil => intro x hx; cases hx
  | cons y ys ih =>
    intro x hx
    rw [List.foldl_cons]
    rcases List.mem_cons.mp hx with h | h
    · subst h
      exact le_trans (le_max_right a x) (listFoldlMax_init_le ys (max a x))
    · exact ih (max a y) x h

/-- A foldl max is attained at the initial value or at an element. -/
theorem listFoldlMax_attained (l : List Int) (a : Int) :
    l.foldl max a = a ∨ l.foldl max a ∈ l := by
  induction l generalizing a with
  | nil => left; rfl
  | cons y ys ih =>
    rw [List.foldl_cons]
    rcases ih (max a y) with h | h
    · rcases max_choice a y with hm | hm
      · left; rw [h, hm]
      · right; rw [h, hm]; exact List.mem_cons_self y ys
    · right; exact List.mem_cons_of_mem y h

/- Helper lemmas about the uppercased-uid Map lookup. -/

/-- The lookup fold leaves the accumulator alone when no task matches
the key. -/
theorem lookupAux_const (tasks : List CaldavTask) (key : String)
    (acc : Option CaldavTask)
    (h : ∀ task ∈ tasks, jsToUpper task.uid ≠ key) :
    tasks.foldl (fun acc task => if jsToUpper task.uid = key then some task else acc) acc
      = acc := by
  induction tasks generalizing acc with
  | nil => rfl
  | cons x xs ih =>
    rw [List.foldl_cons, if_neg (h x (List.mem_cons_self x xs))]
    exact ih acc (fun t ht => h t (List.mem_cons_of_mem x ht))

/-- Map.get misses exactly when no task uid matches after
uppercasing. -/
theorem lookupTaskByUidUpper_eq_none (tasks : List CaldavTask) (key : String)
    (h : ∀ task ∈ tasks, jsToUpper task.uid ≠ key) :
    lookupTaskByUidUpper tasks key = none :=
  lookupAux_const tasks key none h

/-- The lookup fold returns a some once it has one, or once any task
matches. -/
theorem lookupAux_isSome (tasks : List CaldavTask) (key : String)
    (acc : Option CaldavTask)
    (h : (∃ t ∈ tasks, jsToUpper t.uid = key) ∨ acc.isSome = true) :
    (tasks.foldl (fun acc task => if jsToUpper task.uid = key then some task else acc)
      acc).isSome = true := by
  induction tasks generalizing acc with
  | nil =>
    rcases h with ⟨t, ht, _⟩ | h
    · cases ht
    · exact h
  | cons x xs ih =>
    rw [List.foldl_cons]
    rcases h with ⟨t, ht, hk⟩ | hacc
    · rcases List.mem_cons.mp ht with rfl | hmem
      · exact ih _ (Or.inr (by rw [if_pos hk]; rfl))
      · exact ih _ (Or.inl ⟨t, hmem, hk⟩)
    · refine ih _ (Or.inr ?_)
      by_cases hx : jsToUpper x.uid = key
      · rw [if_pos hx]; rfl
      · rw [if_neg hx]; exact hacc

/-- The lookup fold either leaves the accumulator or yields a matching
task from the list. -/
theorem lookupAux_cases (tasks : List CaldavTask) (key : String)
    (acc : Option CaldavTask) :
    tasks.foldl (fun acc task => if jsToUpper task.uid = key then some task else acc) acc
        = acc
      ∨ ∃ t, t ∈ tasks ∧ jsToUpper t.uid = key ∧
          tasks.foldl (fun acc task => if jsToUpper task.uid = key then some task else acc)
            acc = some t := by
  induction tasks generalizing acc with
  | nil => left; rfl
  | cons x xs ih =>
    rw [List.foldl_cons]
    by_cases hx : jsToUpper x.uid = key
    · rw [if_pos hx]
      rcases ih (some x) with h | ⟨t, ht, hk, hres⟩
      · right; exact ⟨x, List.mem_cons_self x xs, hx, h⟩
      · right; exact ⟨t, List.mem_cons_of_mem x ht, hk, hres⟩
    · rw [if_neg hx]
      rcases ih acc with h | ⟨t, ht, hk, hres⟩
      · left; exact h
      · right; exact ⟨t, List.mem_cons_of_mem x ht, hk, hres⟩

/-- When some task uid matches the key after uppercasing, the Map.get
finds a task whose uppercased uid is the key. -/
theorem lookupTaskByUidUpper_finds (tasks : List CaldavTask) (key : String)
    (h : ∃ t ∈ tasks, jsToUpper t.uid = key) :
    ∃ t, t ∈ tasks ∧ jsToUpper t.uid = key ∧
      lookupTaskByUidUpper tasks key = some t := by
  unfold lookupTaskByUidUpper
  have hsome := lookupAux_isSome tasks key none (Or.inl h)
  rcases lookupAux_cases tasks key none with hnone | hgood
  · rw [hnone] at hsome; simp at hsome
  · exact hgood

/-- Claim C5: for every wire PRIORITY value, decode follows the table
wire 1 to internal 5, 2 to 4, 3 or 4 to 3, 5 to 2, other non-zero to
1, and 0 or absent to unset; re-encoding any decoded internal value
yields the bucket canonical wire value (internal 1 to wire 9, 2 to 5,
3 to 3, 4 to 2, 5 to 1). -/
theorem priority_decode_encode_roundtrip :
    (parseVtodoPriority none = none ∧ parseVtodoPriority (some 0) = none) ∧
    (parseVtodoPriority (some 1) = some 5 ∧ parseVtodoPriority (some 2) = some 4 ∧
      parseVtodoPriority (some 3) = some 3 ∧ parseVtodoPriority (some 4) = some 3 ∧
      parseVtodoPriority (some 5) = some 2) ∧
    (∀ w : Int, w ≠ 0 → w ≠ 1 → w ≠ 2 → w ≠ 3 → w ≠ 4 → w ≠ 5 →
      parseVtodoPriority (some w) = some 1) ∧
    (∀ w i : Int, parseVtodoPriority (some w) = some i →
      mapPriorityToCaldav (some i) = some (canonicalWire i)) := by
  refine ⟨⟨rfl, by decide⟩, ⟨by decide, by decide, by decide, by decide, by decide⟩,
    ?_, ?_⟩
  · intro w h0 h1 h2 h3 h4 h5
    simp only [parseVtodoPriority, if_neg h0, if_neg h1, if_neg h2, if_neg h3,
      if_neg h4, if_neg h5]
  · intro w i h
    have hi : i = 5 ∨ i = 4 ∨ i = 3 ∨ i = 2 ∨ i = 1 := by
      simp only [parseVtodoPriority] at h
      split_ifs at h <;> simp at h <;> omega
    rcases hi with rfl | rfl | rfl | rfl | rfl <;> decide

/-- Claim C7: a VALARM trigger carrying a DATE-TIME value and no
RELATED parameter decodes to an absolute reminder (reminderAt set,
relative fields null); a DURATION-valued trigger decodes to a relative
reminder anchored at end when RELATED is END and at start for any
other or absent RELATED value. -/
theorem valarm_trigger_decoding (t : Millis) (s : Int) (r vp : Option String)
    (rest : List Valarm) :
    parseReminders
        ((⟨some ⟨none, some strDateTimeParam, TriggerValue.dateTime t⟩⟩ : Valarm)
          :: rest)
      = (⟨some t, none, none⟩ : CaldavReminder) :: parseReminders rest ∧
    parseReminders
        ((⟨some ⟨r, vp, TriggerValue.duration s⟩⟩ : Valarm) :: rest)
      = (⟨none, some s,
            some (if r = some strRelatedEnd then strAnchorEnd else strAnchorStart)⟩
          : CaldavReminder) :: parseReminders rest := by
  constructor
  · simp [parseReminders, parseReminderOfAlarm]
  · by_cases h : r = some strRelatedEnd <;>
      simp [parseReminders, parseReminderOfAlarm, h]

/-- Claim C1: a sync-collection REPORT carrying a numeric sync token
T above zero answers with exactly the tasks whose updatedAt is
strictly greater than T and exactly the tombstones whose deletedAt is
strictly greater than T, each tombstone as a 410 Gone entry, and its
sync-token element is the decimal string of the maximum of
project.updatedAt, every task updatedAt and every tombstone deletedAt.
The last four conjuncts state that the computed token is that
maximum. -/
theorem sync_collection_report_with_token (project : CaldavProject)
    (tasks : List CaldavTask) (deletions : List DeletionEntry) (T : Millis)
    (hT : 0 < T) :
    (handleReportSyncCollection project tasks deletions (some T)).entries =
        (tasks.filter (fun task => decide (T < task.updatedAt))).map
            (fun task => DavEntry.ok (davTaskHref project.id task.uid) task)
          ++ ((deletions.filter (fun e => decide (T < e.deletedAt))).map
                DeletionEntry.uid).map
              (fun uid => DavEntry.gone (davTaskHref project.id uid)) ∧
    (handleReportSyncCollection project tasks deletions (some T)).syncToken =
        some (toString (computeSyncToken project tasks deletions)) ∧
    project.updatedAt ≤ computeSyncToken project tasks deletions ∧
    (∀ task ∈ tasks, task.updatedAt ≤ computeSyncToken project tasks deletions) ∧
    (∀ e ∈ deletions, e.deletedAt ≤ computeSyncToken project tasks deletions) ∧
    (computeSyncToken project tasks deletions = project.updatedAt ∨
      computeSyncToken project tasks deletions ∈ tasks.map CaldavTask.updatedAt ∨
      computeSyncToken project tasks deletions ∈ deletions.map DeletionEntry.deletedAt) := by
  refine ⟨?_, ?_, ?_, ?_, ?_, ?_⟩
  · simp [handleReportSyncCollection, buildSyncCollectionResponse, hT]
  · simp [handleReportSyncCollection, buildSyncCollectionResponse, hT]
  · exact listFoldlMax_init_le _ _
  · intro task ht
    exact listFoldlMax_mem_le _ _ _
      (List.mem_append.mpr (Or.inl (List.mem_map_of_mem CaldavTask.updatedAt ht)))
  · intro e he
    exact listFoldlMax_mem_le _ _ _
      (List.mem_append.mpr (Or.inr (List.mem_map_of_mem DeletionEntry.deletedAt he)))
  · rcases listFoldlMax_attained
        ((tasks.map CaldavTask.updatedAt) ++ (deletions.map DeletionEntry.deletedAt))
        project.updatedAt with h | h
    · left; exact h
    · rcases List.mem_append.mp h with h | h
      · right; left; exact h
      · right; right; exact h

/-- Witness for C1 at a concrete project with one newer task and one
older tombstone and token 150. -/
theorem sync_collection_report_with_token_witness :
    0 < (150 : Millis) ∧
      (handleReportSyncCollection projW [taskW] [delW] (some 150)).syncToken
        = some (toString (computeSyncToken projW [taskW] [delW])) :=
  ⟨by decide,
    (sync_collection_report_with_token projW [taskW] [delW] 150 (by decide)).2.1⟩

/-- Claim C3 counterexample: with no sync token the code answers with
a 410 Gone entry for the project's tombstone, while the claim says a
token-less sync-collection REPORT returns no tombstone entries. -/
theorem sync_collection_no_token_counterexample :
    (handleReportSyncCollection projW ([] : List CaldavTask) [delW] none).entries
        = [DavEntry.gone (davTaskHref 1 (DeletionEntry.uid delW))] ∧
      [DavEntry.gone (davTaskHref 1 (DeletionEntry.uid delW))] ≠ ([] : List DavEntry) := by
  constructor
  · rfl
  · simp

/-- Claim C3 (amended): a sync-collection REPORT whose body carries no
sync token returns every live task of the project together with a 410
Gone entry for every tombstone of the project, and a sync-token equal
to the computed project maximum. -/
theorem sync_collection_no_token (project : CaldavProject) (tasks : List CaldavTask)
    (deletions : List DeletionEntry) :
    handleReportSyncCollection project tasks deletions none =
      { entries :=
          tasks.map (fun task => DavEntry.ok (davTaskHref project.id task.uid) task)
            ++ (deletions.map DeletionEntry.uid).map
                (fun uid => DavEntry.gone (davTaskHref project.id uid)),
        syncToken := some (toString (computeSyncToken project tasks deletions)) } := rfl

/-- Claim C2 counterexample: two successive successful PUTs to the same
uid whose bodies carry the same LAST-MODIFIED (1000 ms) return 201 then
200 as claimed, with a changed title, yet the second ETag read as a
timestamp is not strictly greater than the first — storage takes
updated_at from the body's LAST-MODIFIED/DTSTAMP when present. -/
theorem put_etag_not_strictly_increasing_counterexample :
    (putUpsert none (parseVtodo propsPutA) uidT1 500).status = 201 ∧
    (putUpsert (some (putUpsert none (parseVtodo propsPutA) uidT1 500).task)
        (parseVtodo propsPutB) uidT1 600).status = 200 ∧
    (parseVtodo propsPutB).title ≠ (parseVtodo propsPutA).title ∧
    ¬ ((putUpsert none (parseVtodo propsPutA) uidT1 500).etagMs <
        (putUpsert (some (putUpsert none (parseVtodo propsPutA) uidT1 500).task)
          (parseVtodo propsPutB) uidT1 600).etagMs) := by
  decide

/-- Claim C2 (amended): the first PUT returns 201 and the second 200,
and the second ETag read as a timestamp equals the second update's
effective updatedAt — the body's LAST-MODIFIED/DTSTAMP when present,
else the server clock — so it is strictly greater than the first ETag
exactly when that effective timestamp exceeds the first task's
updatedAt (in particular whenever the body omits both stamps and the
clock has advanced). -/
theorem put_etag_strictly_increases (parsed1 parsed2 : VtodoInput) (uid : String)
    (now1 now2 : Millis)
    (h : (putUpsert none parsed1 uid now1).task.updatedAt < parsed2.updatedAt.getD now2) :
    (putUpsert none parsed1 uid now1).status = 201 ∧
    (putUpsert (some (putUpsert none parsed1 uid now1).task) parsed2 uid now2).status
        = 200 ∧
    (putUpsert (some (putUpsert none parsed1 uid now1).task) parsed2 uid now2).etagMs
        = parsed2.updatedAt.getD now2 ∧
    (putUpsert none parsed1 uid now1).etagMs <
      (putUpsert (some (putUpsert none parsed1 uid now1).task) parsed2 uid now2).etagMs := by
  have hsecond :
      (putUpsert (some (putUpsert none parsed1 uid now1).task) parsed2 uid now2).etagMs
        = parsed2.updatedAt.getD now2 := by
    by_cases hd : parsed2.description = none <;> simp [putUpsert, updateTask, hd]
  refine ⟨rfl, rfl, hsecond, ?_⟩
  rw [hsecond]
  exact h

/-- Witness for C2 (amended): the second PUT omits both stamps and the
clock advanced to 2000 ms past the first ETag of 1000 ms. -/
theorem put_etag_strictly_increases_witness :
    (putUpsert none (parseVtodo propsPutA) uidT1 500).task.updatedAt
        < (parseVtodo propsPutNoStamp).updatedAt.getD 2000 ∧
      (putUpsert none (parseVtodo propsPutA) uidT1 500).etagMs <
        (putUpsert (some (putUpsert none (parseVtodo propsPutA) uidT1 500).task)
          (parseVtodo propsPutNoStamp) uidT1 2000).etagMs :=
  ⟨by decide,
    (put_etag_strictly_increases (parseVtodo propsPutA) (parseVtodo propsPutNoStamp)
      uidT1 500 2000 (by decide)).2.2.2⟩

/-- Claim C4 (code bug): a PUT to an existing task whose body omits
DESCRIPTION does return 200, but the stored description is clobbered
to the empty string instead of being preserved: parseVtodo defaults an
absent DESCRIPTION to the empty string, so the preservation guard
`parsed.description === undefined` in the PUT route never fires. -/
theorem put_omitting_description_clobbers :
    (putUpsert (some taskKeep) (parseVtodo propsNoDesc) uidT4 2000).status = 200 ∧
    propsNoDesc.description = none ∧
    (parseVtodo propsNoDesc).description = some emptyStr ∧
    (putUpsert (some taskKeep) (parseVtodo propsNoDesc) uidT4 2000).task.description
        = emptyStr ∧
    taskKeep.description = descKeep ∧
    emptyStr ≠ descKeep := by
  decide

/-- Claim C6: in a calendar-multiget response, a requested href whose
extracted uid matches no live task of the project yields one
sub-response with status 404 Not Found, unless the uid is in the
project's tombstone set, in which case the sub-response is 410 Gone. -/
theorem multiget_missing_uid_404_or_410 (tasks : List CaldavTask)
    (deletedUids : List String) (hrefValue uid : String) (rest : List String)
    (st : Option String)
    (hx : normalizeHrefUid hrefValue = some uid)
    (hmiss : ∀ task ∈ tasks, jsToUpper task.uid ≠ jsToUpper uid) :
    (buildCalendarMultigetResponse tasks deletedUids (hrefValue :: rest) st).entries =
      (if jsToUpper uid ∈ deletedUids.map jsToUpper then DavEntry.gone hrefValue
        else DavEntry.notFound hrefValue)
        :: (buildCalendarMultigetResponse tasks deletedUids rest st).entries := by
  have hnone := lookupTaskByUidUpper_eq_none tasks (jsToUpper uid) hmiss
  by_cases hd : jsToUpper uid ∈ deletedUids.map jsToUpper <;>
    simp [buildCalendarMultigetResponse, multigetEntry, hx, hnone, hd]

/-- Witness for C6: an href naming a uid with no live task and no
tombstone yields a single 404 sub-response. -/
theorem multiget_missing_uid_404_or_410_witness :
    normalizeHrefUid hrefMissing = some uidMissing ∧
      (buildCalendarMultigetResponse [] [] [hrefMissing] none).entries
        = [DavEntry.notFound hrefMissing] :=
  ⟨by decide, by
    have h := multiget_missing_uid_404_or_410 [] [] hrefMissing uidMissing [] none
      (by decide) (by intro t ht; cases ht)
    simpa using h⟩

/-- Claim C10: multiget uid matching is ASCII-case-insensitive; both
sides are uppercased before comparison, so an href whose extracted uid
differs from a live task's uid only in letter case still resolves to
that task's entry, and one differing only in case from a tombstoned
uid still resolves to 410 Gone rather than 404. -/
theorem multiget_uid_match_is_case_insensitive (tasks : List CaldavTask)
    (deletedUids : List String) (hrefValue uid : String)
    (hx : normalizeHrefUid hrefValue = some uid) :
    ((∃ task ∈ tasks, jsToUpper task.uid = jsToUpper uid) →
      ∃ task, task ∈ tasks ∧ jsToUpper task.uid = jsToUpper uid ∧
        multigetEntry tasks deletedUids hrefValue
          = some (DavEntry.ok hrefValue task)) ∧
    ((∀ task ∈ tasks, jsToUpper task.uid ≠ jsToUpper uid) →
      (∃ d ∈ deletedUids, jsToUpper d = jsToUpper uid) →
      multigetEntry tasks deletedUids hrefValue = some (DavEntry.gone hrefValue)) := by
  constructor
  · intro hmatch
    rcases lookupTaskByUidUpper_finds tasks (jsToUpper uid) hmatch with ⟨t, ht, hk, hres⟩
    exact ⟨t, ht, hk, by simp [multigetEntry, hx, hres]⟩
  · intro hmiss hdel
    have hnone := lookupTaskByUidUpper_eq_none tasks (jsToUpper uid) hmiss
    have hmem : jsToUpper uid ∈ deletedUids.map jsToUpper := by
      rcases hdel with ⟨d, hd, hk⟩
      exact hk ▸ List.mem_map_of_mem jsToUpper hd
    simp [multigetEntry, hx, hnone, hmem]

/-- Witness for C10: the stored uid ABC is found from an href naming
abc.ics. -/
theorem multiget_uid_match_is_case_insensitive_witness :
    normalizeHrefUid hrefAbc = some uidAbc ∧
      multigetEntry [taskABC] [] hrefAbc = some (DavEntry.ok hrefAbc taskABC) :=
  ⟨by decide, by
    have h := (multiget_uid_match_is_case_insensitive [taskABC] [] hrefAbc uidAbc
        (by decide)).1
      ⟨taskABC, List.mem_cons_self taskABC [], by decide⟩
    rcases h with ⟨t, ht, _, hres⟩
    rcases List.mem_singleton.mp ht with rfl
    exact hres⟩

/-- Claim C8: on the PUT route, a Content-Length header declaring more
than 256 KiB short-circuits with 413, and a body whose actual read
size exceeds 256 KiB is also rejected with 413; both rejections hold
for every possible codec outcome, so they occur before any calendar
parsing. -/
theorem request_body_size_guard (parse : String → Except String VtodoInput)
    (contentLength : Option String) (cl rawBody : String)
    (existing : Option CaldavTask) (uid : String) (now : Millis) :
    (∀ n : Int, cl ≠ emptyStr → parseIntBase10 cl = some n → MAX_BODY_SIZE < n →
      handlePutRoute parse (some cl) rawBody existing uid now = resp413) ∧
    (MAX_BODY_SIZE < (rawBody.length : Int) →
      handlePutRoute parse contentLength rawBody existing uid now = resp413) := by
  constructor
  · intro n hne hparse hbig
    simp only [handlePutRoute, readBodyWithLimit, if_neg hne, hparse, if_pos hbig]
  · intro hbig
    match contentLength with
    | none =>
      simp only [handlePutRoute, readBodyWithLimit, bodyLengthCheck, if_pos hbig]
    | some c =>
      by_cases hc : c = emptyStr
      · simp only [handlePutRoute, readBodyWithLimit, if_pos hc, bodyLengthCheck,
          if_pos hbig]
      · rw [handlePutRoute, readBodyWithLimit]
        rw [if_neg hc]
        match hp : parseIntBase10 c with
        | none => rfl
        | some len =>
          by_cases hlen : MAX_BODY_SIZE < len
          · simp only [if_pos hlen]
          · simp only [if_neg hlen, bodyLengthCheck, if_pos hbig]

/-- Witness for C8: a header declaring 300000 bytes is rejected with
413 under a codec that rejects everything, showing the codec is never
consulted. -/
theorem request_body_size_guard_witness :
    parseIntBase10 clBig = some 300000 ∧ MAX_BODY_SIZE < 300000 ∧
      handlePutRoute parseAbort (some clBig) emptyStr none emptyStr 0 = resp413 :=
  ⟨by decide, by decide,
    (request_body_size_guard parseAbort (some clBig) clBig emptyStr none emptyStr 0).1
      300000 (by decide) (by decide) (by decide)⟩

/-- Claim C9: a request on the protected project route whose Basic
credentials fail (missing header included, as the final conjunct
shows) is answered with 401 and a WWW-Authenticate Basic challenge,
and the handler consults the project only after authentication, so
the response is identical whether or not the addressed project
exists. -/
theorem unauthorized_requests_get_401_challenge (decode : String → String)
    (authenticate : BasicCreds → Option CaldavUser) (authHeader : Option String)
    (render : CaldavProject → HttpResponse)
    (h : requireAuth decode authenticate authHeader = none) :
    (∀ project : Option CaldavProject,
      handleProject decode authenticate authHeader project render
        = buildUnauthorizedResponse) ∧
    (∀ p1 p2 : Option CaldavProject,
      handleProject decode authenticate authHeader p1 render
        = handleProject decode authenticate authHeader p2 render) ∧
    buildUnauthorizedResponse.status = 401 ∧
    buildUnauthorizedResponse.headers = [(wwwAuthenticateName, basicChallenge)] ∧
    parseBasicAuth decode none = none := by
  refine ⟨?_, ?_, rfl, rfl, rfl⟩
  · intro project
    simp only [handleProject, h]
  · intro p1 p2
    simp only [handleProject, h]

/-- Witness for C9: with no Authorization header and a matching
project present, the response is the 401 challenge. -/
theorem unauthorized_requests_get_401_challenge_witness :
    requireAuth idDecode noUser none = none ∧
      handleProject idDecode noUser none (some projW) projRender
        = buildUnauthorizedResponse :=
  ⟨rfl,
    (unauthorized_requests_get_401_challenge idDecode noUser none projRender rfl).1
      (some projW)⟩
